import Mathlib

/-!
Shallow embedding of the chunked-transcription core of the
gemini-Transcription-Master repository, together with proofs checking the
natural-language specification against it.

Source files embedded:
- src/types.ts                 (data model)
- src/utils/progressStorage.ts (progress store, audio splitting, WAV scaling,
                                time-string parsing; the file also carries the
                                audioUtils helpers)
- src/utils/errorHandling.ts   (error taxonomy and classification)
- src/services/geminiService.ts (retry wrapper around the remote call)
- src/unnamed/part_000         (the App orchestrator: resume decision and the
                                per-chunk processing loop in processAudio)

JavaScript numbers that only ever hold small integers are modelled as Nat;
audio sample amplitudes and parsed time values are modelled as Rat (exact
rational arithmetic; the concrete inputs used in the theorems below are
exactly representable as IEEE doubles, so the model and the JS code agree on
them).  Mutable React state is modelled by explicit state passing; the value
of a `useState` variable captured by the `processAudio` closure is threaded
separately from the state cell that `setTranscripts` updates, because inside
one invocation of `processAudio` the captured binding never changes.
-/

set_option autoImplicit false

namespace GeminiTranscription

/-! ## Data model (src/types.ts) -/

/-- One utterance of the transcript, src/types.ts lines 1-6. -/
structure TranscriptSegment where
  speaker : String
  timestamp : String
  startTimeSeconds : ℚ
  text : String
  deriving DecidableEq

/-- Run status of the orchestrator, src/types.ts lines 14-21. -/
inductive AppStatus where
  | IDLE
  | PREPARING
  | PROCESSING
  | COMPLETED
  | ERROR
  | STOPPED
  deriving DecidableEq

/-! ## Progress store (src/utils/progressStorage.ts lines 1-80) -/

/-- The persisted resume record, src/utils/progressStorage.ts lines 3-10. -/
structure SavedProgress where
  fileName : String
  fileSize : ℕ
  transcripts : List TranscriptSegment
  processedChunks : ℕ
  totalChunks : ℕ
  timestamp : ℕ
  deriving DecidableEq

/-- The single localStorage slot under STORAGE_KEY; `none` means no record. -/
abbrev Store := Option SavedProgress

/-- MAX_AGE_MS, src/utils/progressStorage.ts line 13. -/
def MAX_AGE_MS : ℕ := 24 * 60 * 60 * 1000

/-- saveProgress, src/utils/progressStorage.ts lines 18-38: overwrites the
slot with a fresh record stamped `now` (Date.now()). -/
def saveProgress (fileName : String) (fileSize : ℕ)
    (transcripts : List TranscriptSegment) (processedChunks totalChunks : ℕ)
    (now : ℕ) : Store :=
  some { fileName := fileName, fileSize := fileSize, transcripts := transcripts,
         processedChunks := processedChunks, totalChunks := totalChunks,
         timestamp := now }

/-- clearProgress, src/utils/progressStorage.ts lines 74-80. -/
def clearProgress (_store : Store) : Store := none

/-- loadProgress, src/utils/progressStorage.ts lines 43-69.  Returns the
loaded value and the store as left behind by the call (the expired branch
calls clearProgress).  `now` is Date.now(); ages are in milliseconds. -/
def loadProgress (fileName : String) (fileSize now : ℕ) (store : Store) :
    Option SavedProgress × Store :=
  match store with
  | none => (none, none)
  | some progress =>
    if progress.fileName ≠ fileName ∨ progress.fileSize ≠ fileSize then
      (none, some progress)
    else if now - progress.timestamp > MAX_AGE_MS then
      (none, clearProgress (some progress))
    else
      (some progress, some progress)

/-! ## Error classification (src/utils/errorHandling.ts) -/

/-- ErrorType, src/utils/errorHandling.ts lines 4-11. -/
inductive ErrorType where
  | NETWORK_ERROR
  | API_ERROR
  | AUDIO_DECODE_ERROR
  | QUOTA_EXCEEDED
  | INVALID_API_KEY
  | UNKNOWN_ERROR
  deriving DecidableEq

/-- AppError, src/utils/errorHandling.ts lines 16-33 (the Error superclass
is represented by the `message` field). -/
structure AppError where
  etype : ErrorType
  message : String
  userMessage : String
  retryable : Bool
  deriving DecidableEq

/-- Does the character list `s` start with the character list `p`? -/
def startsWithChars : List Char → List Char → Bool
  | _, [] => true
  | [], _ :: _ => false
  | c :: s, d :: p => c == d && startsWithChars s p

/-- Does the character list `s` contain the character list `p` as a
contiguous run?  Used to model JavaScript String.prototype.includes. -/
def containsChars : List Char → List Char → Bool
  | [], p => p.isEmpty
  | c :: s, p => startsWithChars (c :: s) p || containsChars s p

/-- JavaScript `a.includes(b)` on strings. -/
def strIncludes (s p : String) : Bool :=
  containsChars s.data p.data

/-- parseGeminiError, src/utils/errorHandling.ts lines 38-78.  The argument
is the already-extracted textual message (`error?.message ||
error?.toString() || ''` at line 39). -/
def parseGeminiError (errorMessage : String) : AppError :=
  if strIncludes errorMessage "API key" || strIncludes errorMessage "authentication" then
    { etype := .INVALID_API_KEY, message := errorMessage,
      userMessage := "API 金鑰無效或已過期，請檢查您的設定", retryable := false }
  else if strIncludes errorMessage "quota" || strIncludes errorMessage "rate limit" then
    { etype := .QUOTA_EXCEEDED, message := errorMessage,
      userMessage := "已達到 API 使用配額限制，請稍後再試", retryable := true }
  else if strIncludes errorMessage "network" || strIncludes errorMessage "fetch" then
    { etype := .NETWORK_ERROR, message := errorMessage,
      userMessage := "網路連線發生問題，請檢查您的網路連線", retryable := true }
  else
    { etype := .API_ERROR, message := errorMessage,
      userMessage := "API 請求失敗：" ++ errorMessage, retryable := true }

/-! ## Retry wrapper (src/services/geminiService.ts lines 21-44) -/

/-- Observable trace of one transcribeWithRetry call: its outcome, the
backoff delays slept between consecutive attempts (in milliseconds, in
order), and how many attempts were made. -/
structure RetryTrace (E A : Type) where
  result : Except E A
  delays : List ℕ
  attemptsMade : ℕ

/-- Default maxRetries, src/services/geminiService.ts line 26. -/
def defaultMaxRetries : ℕ := 3

/-- Default retryDelay (the spec's baseDelay), same line. -/
def defaultRetryDelay : ℕ := 1000

/-- The body of the `for (let attempt = 0; attempt <= maxRetries; ...)` loop
of transcribeWithRetry, src/services/geminiService.ts lines 29-43.
`remaining` counts the attempts still allowed after the current one, so the
loop starts at `remaining = maxRetries`; when the current attempt fails and
`remaining = 0` the loop exits and the last error is rethrown (line 43).
`fn attempt` is the outcome of the wrapped remote call on that attempt. -/
def retryGo {E A : Type} (fn : ℕ → Except E A) (retryDelay : ℕ) :
    (attempt remaining : ℕ) → RetryTrace E A
  | attempt, 0 => { result := fn attempt, delays := [], attemptsMade := 1 }
  | attempt, remaining + 1 =>
    match fn attempt with
    | .ok value => { result := .ok value, delays := [], attemptsMade := 1 }
    | .error _ =>
      let t := retryGo fn retryDelay (attempt + 1) remaining
      { result := t.result,
        delays := retryDelay * 2 ^ attempt :: t.delays,
        attemptsMade := t.attemptsMade + 1 }

/-- transcribeWithRetry, src/services/geminiService.ts lines 21-44. -/
def transcribeWithRetry {E A : Type} (fn : ℕ → Except E A)
    (maxRetries retryDelay : ℕ) : RetryTrace E A :=
  retryGo fn retryDelay 0 maxRetries

/-! ## Audio splitting (src/utils/progressStorage.ts lines 105-129, the
audioUtils part of the file) -/

/-- The `for (let startFrame = 0; startFrame < length; startFrame +=
chunkLengthFrames)` loop of splitAudioBuffer, lines 114-126, returning the
frame count of each chunk in order.  `total` is audioBuffer.length in
frames, `K` is chunkLengthFrames = chunkDurationSeconds * sampleRate (line
109).  Each chunk's frame count is `min (startFrame + K) total - startFrame`
(lines 115-116).  The loop runs at most `total` iterations when `0 < K`, so
`fuel = total` reproduces it exactly. -/
def splitLoopGo (K total : ℕ) : (fuel startFrame : ℕ) → List ℕ
  | 0, _ => []
  | fuel + 1, startFrame =>
    if startFrame < total then
      (min (startFrame + K) total - startFrame) ::
        splitLoopGo K total fuel (startFrame + K)
    else []

/-- splitAudioBuffer, src/utils/progressStorage.ts lines 105-129, at the
level of frame counts: chunk durations are these counts divided by the
sample rate. -/
def splitAudioBuffer (total K : ℕ) : List ℕ :=
  splitLoopGo K total total 0

/-! ## WAV sample scaling (src/utils/progressStorage.ts lines 167-175,
the audioBufferToWav encoder) -/

/-- Truncation toward zero of a rational, the effect of JavaScript `| 0` on
an in-range value. -/
def ratTrunc (q : ℚ) : ℤ :=
  if 0 ≤ q then ⌊q⌋ else ⌈q⌉

/-- Wrap an integer into the int32 range, the full semantics of `| 0`
(ToInt32) after truncation. -/
def toInt32 (v : ℤ) : ℤ :=
  (v + 2 ^ 31) % 2 ^ 32 - 2 ^ 31

/-- Line 169: `Math.max(-1, Math.min(1, channels[i][pos]))`. -/
def clampSample (s : ℚ) : ℚ :=
  max (-1) (min 1 s)

/-- Line 170: `(0.5 + sample < 0 ? sample * 32768 : sample * 32767) | 0`
applied to the clamped sample.  Note the branch condition compares
`0.5 + sample` with 0, so the ×32768 branch is taken exactly when the
clamped sample is below -0.5. -/
def scaleSample (s : ℚ) : ℤ :=
  let c := clampSample s
  toInt32 (ratTrunc (if 1 / 2 + c < 0 then c * 32768 else c * 32767))

/-- Little-endian byte pair written by `view.setInt16(offset, sample, true)`
at line 171, for a value already in the int16 range. -/
def int16Bytes (v : ℤ) : ℕ × ℕ :=
  ((v % 65536).toNat % 256, (v % 65536).toNat / 256)

/-- Reading back a little-endian int16 byte pair as a signed value. -/
def int16OfBytes (lo hi : ℕ) : ℤ :=
  let u := lo + 256 * hi
  if u < 32768 then (u : ℤ) else (u : ℤ) - 65536

/-! ## Time-string parsing (src/utils/progressStorage.ts lines 226-243,
the audioUtils part of the file) -/

/-- ASCII whitespace, the characters JavaScript trim removes that occur in
practice. -/
def isWhitespaceCh (c : Char) : Bool :=
  c == ' ' || c == '\t' || c == '\n' || c == '\r'

/-- JavaScript String.prototype.trim at the character-list level. -/
def trimWs (l : List Char) : List Char :=
  ((l.dropWhile isWhitespaceCh).reverse.dropWhile isWhitespaceCh).reverse

/-- JavaScript String.prototype.split with a single-character separator:
`splitChar ':' "a:b"` gives the groups between separators, with the empty
string splitting to one empty group. -/
def splitChar (sep : Char) : List Char → List (List Char)
  | [] => [[]]
  | c :: cs =>
    match splitChar sep cs with
    | [] => [[]]
    | g :: gs => if c == sep then [] :: g :: gs else (c :: g) :: gs

/-- Decimal digit test. -/
def isDigitCh (c : Char) : Bool :=
  '0' ≤ c && c ≤ '9'

/-- Value of a list of decimal digits (most significant first). -/
def digitsToNat (l : List Char) : ℕ :=
  l.foldl (fun n c => 10 * n + (c.toNat - '0'.toNat)) 0

/-- Unsigned decimal literal: digits with at most one point, at least one
digit overall ("1." and ".5" parse, "." does not). -/
def parseUnsigned (l : List Char) : Option ℚ :=
  let intPart := l.takeWhile isDigitCh
  let rest := l.dropWhile isDigitCh
  match rest with
  | [] => if intPart.isEmpty then none else some (digitsToNat intPart)
  | '.' :: frac =>
    if frac.all isDigitCh && !(intPart.isEmpty && frac.isEmpty) then
      some ((digitsToNat intPart : ℚ) + (digitsToNat frac : ℚ) / (10 : ℚ) ^ frac.length)
    else none
  | _ => none

/-- JavaScript Number() on the decimal fragment it is applied to here:
whitespace is trimmed, the empty string is 0, an optional sign precedes an
unsigned decimal literal, and anything else is NaN (`none`). -/
def jsNumberChars (l : List Char) : Option ℚ :=
  match trimWs l with
  | [] => some 0
  | '+' :: r => parseUnsigned r
  | '-' :: r => (parseUnsigned r).map (fun q => -q)
  | t => parseUnsigned t

/-- JavaScript Number() on a string, via `jsNumberChars`. -/
def jsNumber (s : String) : Option ℚ :=
  jsNumberChars s.data

/-- parseTimeStringToSeconds, src/utils/progressStorage.ts lines 226-243:
trim, split on ':', map Number; if any part is NaN return 0, otherwise
combine 3 parts as H:M:S, 2 as M:S, 1 as S, and any other arity gives 0. -/
def parseTimeStringToSeconds (timeStr : String) : ℚ :=
  let parts := (splitChar ':' (trimWs timeStr.data)).map jsNumberChars
  if parts.any Option.isNone then 0
  else
    let v := parts.map (fun o => o.getD 0)
    if parts.length = 3 then v.getD 0 0 * 3600 + v.getD 1 0 * 60 + v.getD 2 0
    else if parts.length = 2 then v.getD 0 0 * 60 + v.getD 1 0
    else if parts.length = 1 then v.getD 0 0
    else 0

/-! ## The orchestrator (src/unnamed/part_000, processAudio lines 68-179) -/

/-- CHUNK_DURATION, src/unnamed/part_000 line 14 (seconds). -/
def CHUNK_DURATION : ℕ := 300

/-- The synthetic placeholder appended for a chunk whose transcription call
failed after retries, src/unnamed/part_000 lines 157-162.  `i` is the
0-based chunk index; `startTimeOffset = i * CHUNK_DURATION` (line 133). -/
def errorSegment (i : ℕ) (appError : AppError) : TranscriptSegment :=
  { speaker := "System", timestamp := "Error",
    startTimeSeconds := ((i * CHUNK_DURATION : ℕ) : ℚ),
    text := "[轉錄此片段時發生錯誤 (" ++ toString (i + 1) ++ "): " ++
      appError.userMessage ++ "]" }

/-- Inputs of one processAudio run that the loop reads.
`closureTranscripts` is the value of the `transcripts` useState binding
captured by the processAudio closure — frozen for the whole invocation.
`stopSignal i` is the value of `abortControllerRef.current` as read at loop
boundary `i` (it has a single writer and only ever goes from false to
true).  `outcome i` is the settled result of the awaited
`transcribeChunk` call for chunk `i` (a unit: full segment list or an
error message).  `now` is Date.now() as seen by saveProgress. -/
structure LoopEnv where
  fileName : String
  fileSize : ℕ
  totalChunks : ℕ
  closureTranscripts : List TranscriptSegment
  stopSignal : ℕ → Bool
  outcome : ℕ → Except String (List TranscriptSegment)
  now : ℕ

/-- The mutable React state the loop writes: the transcripts cell, the
persisted store, the status and the sticky error message. -/
structure LoopState where
  transcripts : List TranscriptSegment
  store : Store
  status : AppStatus
  errorMsg : Option String
  deriving DecidableEq

/-- The body of one non-stopped loop iteration, src/unnamed/part_000 lines
126-163: on success append the returned segments and persist progress with
processedChunks = i + 1 (lines 140-146); on failure classify the error,
surface a sticky message when it is non-retryable, and append the single
synthetic placeholder (lines 147-163; no saveProgress on this path). -/
def stepChunk (env : LoopEnv) (i : ℕ) (st : LoopState) : LoopState :=
  match env.outcome i with
  | .ok newSegments =>
    let updated := st.transcripts ++ newSegments
    { st with
      transcripts := updated,
      store := saveProgress env.fileName env.fileSize updated (i + 1)
        env.totalChunks env.now }
  | .error err =>
    let appError := parseGeminiError err
    { st with
      errorMsg := if appError.retryable then st.errorMsg else some appError.userMessage,
      transcripts := st.transcripts ++ [errorSegment i appError] }

/-- The `for (let i = startChunk; i < totalChunks; i++)` loop of
processAudio, src/unnamed/part_000 lines 118-164, with `remaining =
totalChunks - i`.  The stop check at lines 119-124 saves
`env.closureTranscripts` — the binding captured at function entry, not the
current cell — with processedChunks = i, and breaks. -/
def processLoop (env : LoopEnv) : (remaining i : ℕ) → LoopState → LoopState
  | 0, _, st => st
  | remaining + 1, i, st =>
    if env.stopSignal i then
      { st with
        status := .STOPPED,
        store := saveProgress env.fileName env.fileSize env.closureTranscripts i
          env.totalChunks env.now }
    else
      processLoop env remaining (i + 1) (stepChunk env i st)

/-- The Processing phase of processAudio from line 115 (setStatus
PROCESSING) through the completion check of lines 166-171: run the loop,
then, if the abort flag is still clear, mark COMPLETED and clear the
persisted progress.  The flag after the loop is its value at boundary
`totalChunks`; the flag is monotone within a run. -/
def processAudioRun (env : LoopEnv) (startChunk : ℕ) (st : LoopState) : LoopState :=
  let afterLoop := processLoop env (env.totalChunks - startChunk) startChunk
    { st with status := .PROCESSING }
  if env.stopSignal env.totalChunks then afterLoop
  else { afterLoop with status := .COMPLETED, store := clearProgress afterLoop.store }

/-- The resume decision of processAudio, src/unnamed/part_000 lines 76-95
together with the startChunk computation of lines 110-112: load saved
progress; when a record with at least one segment is found, `accept` is the
user's window.confirm answer — accepting adopts the record's transcripts,
declining clears the store and empties the cell; the returned start index
is `savedProgress.processedChunks` whenever the loaded record has at least
one segment, independent of `accept` (lines 110-112 test only
`savedProgress && savedProgress.transcripts.length > 0`). -/
def resumeDecision (fileName : String) (fileSize now : ℕ) (accept : Bool)
    (store : Store) : ℕ × List TranscriptSegment × Store :=
  match loadProgress fileName fileSize now store with
  | (some savedProgress, store1) =>
    if savedProgress.transcripts.length > 0 then
      if accept then (savedProgress.processedChunks, savedProgress.transcripts, store1)
      else (savedProgress.processedChunks, [], clearProgress store1)
    else (0, [], store1)
  | (none, store1) => (0, [], store1)

/-- One whole processAudio invocation at the level the claims need: the
resume decision followed by the processing loop.  `entryTranscripts` is the
component's transcripts state when processAudio starts — it is both the
initial cell value seen by the resume decision's overwrites and the value
the closure binding keeps for the whole run. -/
def processAudioModel (fileName : String) (fileSize now : ℕ) (accept : Bool)
    (entryTranscripts : List TranscriptSegment) (store : Store)
    (totalChunks : ℕ) (stopSignal : ℕ → Bool)
    (outcome : ℕ → Except String (List TranscriptSegment)) : LoopState :=
  let d := resumeDecision fileName fileSize now accept store
  let env : LoopEnv :=
    { fileName := fileName, fileSize := fileSize, totalChunks := totalChunks,
      closureTranscripts := entryTranscripts, stopSignal := stopSignal,
      outcome := outcome, now := now }
  processAudioRun env d.1
    { transcripts := d.2.1, store := d.2.2, status := .PREPARING, errorMsg := none }

/-- The segments one loop iteration contributes to the transcripts cell:
the returned segments on success, the single synthetic placeholder on
failure. -/
def chunkContribution (env : LoopEnv) (i : ℕ) : List TranscriptSegment :=
  match env.outcome i with
  | .ok newSegments => newSegments
  | .error err => [errorSegment i (parseGeminiError err)]

/-! ## Concrete scenario inputs used by the witnesses below -/

/-- A segment as chunk 0 of a run would produce it. -/
def sampleSegment : TranscriptSegment :=
  { speaker := "講者 1", timestamp := "00:05", startTimeSeconds := 5, text := "第一句話" }

/-- A segment as chunk 2 of a run would produce it. -/
def sampleSegmentLate : TranscriptSegment :=
  { speaker := "講者 2", timestamp := "00:10", startTimeSeconds := 610, text := "結尾" }

/-- Scenario B of the spec: three chunks, chunk 1 (0-based) fails after all
retries with a network error, the stop button is never pressed. -/
def envScenarioB : LoopEnv :=
  { fileName := "b.mp3", fileSize := 2048, totalChunks := 3,
    closureTranscripts := [], stopSignal := fun _ => false,
    outcome := fun i =>
      if i = 0 then .ok [sampleSegment]
      else if i = 1 then .error "network glitch"
      else .ok [sampleSegmentLate],
    now := 42 }

/-- The loop state right before the Processing phase of a fresh run. -/
def freshState : LoopState :=
  { transcripts := [], store := none, status := .PREPARING, errorMsg := none }

/-- Scenario C of the spec: a fresh 3-chunk run in which chunk 0 succeeds
with one segment and the stop signal is observed at every boundary from 1
on.  The store starts empty, and Date.now() is 0 during the run. -/
def runScenarioC : LoopState :=
  processAudioModel "a.mp3" 1000 0 false [] none 3 (fun i => decide (1 ≤ i))
    (fun i => if i = 0 then .ok [sampleSegment] else .ok [])

/-- A matching saved record holding one segment with 2 of 3 chunks done. -/
def declinedRecord : SavedProgress :=
  { fileName := "a.mp3", fileSize := 1000, transcripts := [sampleSegment],
    processedChunks := 2, totalChunks := 3, timestamp := 0 }

/-- A matching saved record holding no segments (as the stop path of the
orchestrator writes it). -/
def emptyRecord : SavedProgress :=
  { fileName := "a.mp3", fileSize := 1000, transcripts := [],
    processedChunks := 1, totalChunks := 3, timestamp := 0 }

/-! ## Theorems.

Claim-level theorems are marked with their claim id; the remaining theorems
are shared supporting lemmas. -/

/-- Supporting lemma: the splitting loop of splitAudioBuffer distributes the
frames of `[startFrame, total)` over its chunks. -/
theorem splitLoopGo_sum (K total : ℕ) (hK : 0 < K) :
    ∀ fuel startFrame, total - startFrame ≤ fuel →
      (splitLoopGo K total fuel startFrame).sum = total - startFrame := by
  intro fuel
  induction fuel with
  | zero => intro s hs; simp [splitLoopGo]; omega
  | succ fuel ih =>
    intro s hs
    by_cases h : s < total
    · have hrec := ih (s + K) (by omega)
      simp [splitLoopGo, h, hrec]
      omega
    · simp [splitLoopGo, h]
      omega

/-- Supporting lemma: the splitting loop produces `ceil(remaining / K)`
chunks. -/
theorem splitLoopGo_length (K total : ℕ) (hK : 0 < K) :
    ∀ fuel startFrame, total - startFrame ≤ fuel →
      (splitLoopGo K total fuel startFrame).length = (total - startFrame + K - 1) / K := by
  intro fuel
  induction fuel with
  | zero =>
    intro s hs
    have h0 : total - s = 0 := by omega
    simp [splitLoopGo, h0, Nat.div_eq_of_lt (show K - 1 < K by omega)]
  | succ fuel ih =>
    intro s hs
    by_cases h : s < total
    · have hrec := ih (s + K) (by omega)
      simp [splitLoopGo, h, hrec]
      rw [show total - s + K - 1 = (total - s - 1) + K by omega,
        Nat.add_div_right _ hK]
      rcases Nat.le_total K (total - s) with h2 | h2
      · rw [show total - (s + K) + K - 1 = total - s - 1 by omega]
      · rw [show total - (s + K) = 0 by omega]
        rw [show 0 + K - 1 = K - 1 by omega,
          Nat.div_eq_of_lt (show K - 1 < K by omega),
          Nat.div_eq_of_lt (show total - s - 1 < K by omega)]
    · have h0 : total - s = 0 := by omega
      simp [splitLoopGo, h, h0, Nat.div_eq_of_lt (show K - 1 < K by omega)]

/-- Supporting lemma: every chunk the splitting loop produces is nonempty
and holds at most K frames. -/
theorem splitLoopGo_mem (K total : ℕ) (hK : 0 < K) :
    ∀ fuel startFrame c, c ∈ splitLoopGo K total fuel startFrame → 0 < c ∧ c ≤ K := by
  intro fuel
  induction fuel with
  | zero => intro s c hc; simp [splitLoopGo] at hc
  | succ fuel ih =>
    intro s c hc
    by_cases h : s < total
    · simp [splitLoopGo, h] at hc
      rcases hc with hc | hc
      · omega
      · exact ih (s + K) c hc
    · simp [splitLoopGo, h] at hc

/-- Supporting lemma: every chunk except possibly the last holds exactly K
frames. -/
theorem splitLoopGo_internal (K total : ℕ) (hK : 0 < K) :
    ∀ fuel startFrame j, total - startFrame ≤ fuel →
      j + 1 < (splitLoopGo K total fuel startFrame).length →
      (splitLoopGo K total fuel startFrame).getD j 0 = K := by
  intro fuel
  induction fuel with
  | zero => intro s j hs hj; simp [splitLoopGo] at hj
  | succ fuel ih =>
    intro s j hs hj
    by_cases h : s < total
    · rw [splitLoopGo, if_pos h] at hj ⊢
      match j with
      | 0 =>
        simp only [List.getD_cons_zero]
        simp only [List.length_cons] at hj
        have hlen := splitLoopGo_length K total hK fuel (s + K) (by omega)
        by_cases h2 : s + K < total
        · omega
        · rw [show total - (s + K) = 0 by omega] at hlen
          rw [show 0 + K - 1 = K - 1 by omega,
            Nat.div_eq_of_lt (show K - 1 < K by omega)] at hlen
          omega
      | j + 1 =>
        simp only [List.getD_cons_succ]
        simp only [List.length_cons] at hj
        exact ih (s + K) j (by omega) (by omega)
    · rw [splitLoopGo, if_neg h] at hj
      simp at hj

/-- C4: for a source of `total` frames and a chunk length of `K` frames
(`K = chunkDurationSeconds * sampleRate`, positive), splitAudioBuffer
yields exactly `ceil(total / K)` chunks, their frame counts sum to exactly
`total`, every chunk holds at most `K` frames and at least one, every chunk
except possibly the last holds exactly `K` frames, and a zero-length source
yields the empty sequence.  Durations are frame counts divided by the fixed
sample rate, so the same statements hold for durations. -/
theorem splitAudioBuffer_spec (total K : ℕ) (hK : 0 < K) :
    (splitAudioBuffer total K).length = (total + K - 1) / K ∧
    (splitAudioBuffer total K).sum = total ∧
    (∀ c ∈ splitAudioBuffer total K, 0 < c ∧ c ≤ K) ∧
    (∀ j, j + 1 < (splitAudioBuffer total K).length →
      (splitAudioBuffer total K).getD j 0 = K) ∧
    (total = 0 → splitAudioBuffer total K = []) := by
  refine ⟨?_, ?_, ?_, ?_, ?_⟩
  · have h := splitLoopGo_length K total hK total 0 (by omega)
    simpa using h
  · have h := splitLoopGo_sum K total hK total 0 (by omega)
    simpa using h
  · intro c hc
    exact splitLoopGo_mem K total hK total 0 c hc
  · intro j hj
    exact splitLoopGo_internal K total hK total 0 j (by omega) hj
  · intro h
    subst h
    rfl

/-- Witness for C4 at the spec's scenario A (700 frames, K = 300): the
hypothesis 0 < 300 holds and the theorem yields 3 chunks of 300, 300 and
100 frames. -/
theorem splitAudioBuffer_spec_witness :
    (splitAudioBuffer 700 300).length = 3 ∧
    (splitAudioBuffer 700 300).sum = 700 ∧
    splitAudioBuffer 700 300 = [300, 300, 100] := by
  have h := splitAudioBuffer_spec 700 300 (by decide)
  exact ⟨h.1, h.2.1, by decide⟩

/-- Supporting lemma: each run of the retry loop makes at least one
attempt. -/
theorem retryGo_attempts_pos {E A : Type} (fn : ℕ → Except E A) (d : ℕ) :
    ∀ remaining attempt, 1 ≤ (retryGo fn d attempt remaining).attemptsMade := by
  intro remaining
  induction remaining with
  | zero => intro a; simp [retryGo]
  | succ r ih =>
    intro a
    rw [retryGo]
    cases h : fn a with
    | ok v => simp
    | error e => simp

/-- Supporting lemma: the retry loop makes at most `remaining + 1`
attempts. -/
theorem retryGo_attempts_le {E A : Type} (fn : ℕ → Except E A) (d : ℕ) :
    ∀ remaining attempt, (retryGo fn d attempt remaining).attemptsMade ≤ remaining + 1 := by
  intro remaining
  induction remaining with
  | zero => intro a; simp [retryGo]
  | succ r ih =>
    intro a
    rw [retryGo]
    cases h : fn a with
    | ok v => simp
    | error e =>
      have := ih (a + 1)
      simp
      omega

/-- Supporting lemma: prepending the backoff of the current attempt to the
delays of the remaining attempts re-indexes the exponents. -/
theorem delays_cons (d a r : ℕ) :
    d * 2 ^ a :: (List.range r).map (fun k => d * 2 ^ (a + 1 + k)) =
      (List.range (r + 1)).map (fun k => d * 2 ^ (a + k)) := by
  rw [List.range_succ_eq_map, List.map_cons, List.map_map]
  congr 1
  congr 1
  funext k
  simp only [Function.comp_apply]
  congr 2
  omega

/-- Supporting lemma: the delays slept by the retry loop are exactly the
exponential backoffs `d * 2 ^ attempt` of the attempts that failed while
retries remained, one per attempt except the last. -/
theorem retryGo_delays {E A : Type} (fn : ℕ → Except E A) (d : ℕ) :
    ∀ remaining attempt,
      (retryGo fn d attempt remaining).delays =
        (List.range ((retryGo fn d attempt remaining).attemptsMade - 1)).map
          (fun k => d * 2 ^ (attempt + k)) := by
  intro remaining
  induction remaining with
  | zero => intro a; simp [retryGo]
  | succ r ih =>
    intro a
    rw [retryGo]
    cases h : fn a with
    | ok v => simp
    | error e =>
      simp only
      have hpos := retryGo_attempts_pos fn d r (a + 1)
      obtain ⟨m, hm⟩ : ∃ m, (retryGo fn d (a + 1) r).attemptsMade = m + 1 :=
        ⟨(retryGo fn d (a + 1) r).attemptsMade - 1, by omega⟩
      rw [ih (a + 1), hm]
      simp only [Nat.add_sub_cancel]
      exact delays_cons d a m

/-- Supporting lemma: when every attempt the loop can make fails, the loop
makes all `remaining + 1` attempts, sleeps all `remaining` backoffs, and
propagates the error of the final attempt. -/
theorem retryGo_all_fail {E A : Type} (fn : ℕ → Except E A) (d : ℕ) (errF : ℕ → E) :
    ∀ remaining attempt,
      (∀ k, attempt ≤ k → k ≤ attempt + remaining → fn k = .error (errF k)) →
      retryGo fn d attempt remaining =
        { result := .error (errF (attempt + remaining)),
          delays := (List.range remaining).map (fun k => d * 2 ^ (attempt + k)),
          attemptsMade := remaining + 1 } := by
  intro remaining
  induction remaining with
  | zero =>
    intro a h
    simp [retryGo, h a (by omega) (by omega)]
  | succ r ih =>
    intro a h
    rw [retryGo, h a (by omega) (by omega)]
    simp only
    rw [ih (a + 1) (fun k hk1 hk2 => h k (by omega) (by omega))]
    simp only
    rw [delays_cons d a r]
    have : a + 1 + r = a + (r + 1) := by omega
    rw [this]

/-- Supporting lemma: a successful result of the retry loop is the complete
output of one single attempt within the allowed range. -/
theorem retryGo_ok_source {E A : Type} (fn : ℕ → Except E A) (d : ℕ) :
    ∀ remaining attempt value,
      (retryGo fn d attempt remaining).result = .ok value →
      ∃ k, attempt ≤ k ∧ k ≤ attempt + remaining ∧ fn k = .ok value := by
  intro remaining
  induction remaining with
  | zero =>
    intro a v h
    simp [retryGo] at h
    exact ⟨a, by omega, by omega, h⟩
  | succ r ih =>
    intro a v h
    rw [retryGo] at h
    cases hf : fn a with
    | ok w =>
      rw [hf] at h
      simp at h
      exact ⟨a, by omega, by omega, by rw [hf, h]⟩
    | error e =>
      rw [hf] at h
      simp at h
      obtain ⟨k, hk1, hk2, hk3⟩ := ih (a + 1) v h
      exact ⟨k, by omega, by omega, hk3⟩

/-- C3: transcribeWithRetry makes one initial attempt plus at most
maxRetries additional attempts; the delays slept between consecutive
attempts are exactly `retryDelay * 2 ^ attempt` for the 0-indexed attempts
that failed with retries remaining (no jitter); if every attempt fails the
trace records maxRetries + 1 attempts, the full backoff schedule, and the
error of the last attempt as the propagated result; and a successful result
is the complete segment list of a single attempt — never a mixture. -/
theorem transcribeWithRetry_spec {E A : Type} (fn : ℕ → Except E A)
    (maxRetries retryDelay : ℕ) (errF : ℕ → E) :
    (transcribeWithRetry fn maxRetries retryDelay).attemptsMade ≤ maxRetries + 1 ∧
    (transcribeWithRetry fn maxRetries retryDelay).delays =
      (List.range ((transcribeWithRetry fn maxRetries retryDelay).attemptsMade - 1)).map
        (fun k => retryDelay * 2 ^ k) ∧
    ((∀ k, k ≤ maxRetries → fn k = .error (errF k)) →
      transcribeWithRetry fn maxRetries retryDelay =
        { result := .error (errF maxRetries),
          delays := (List.range maxRetries).map (fun k => retryDelay * 2 ^ k),
          attemptsMade := maxRetries + 1 }) ∧
    (∀ value, (transcribeWithRetry fn maxRetries retryDelay).result = .ok value →
      ∃ k, k ≤ maxRetries ∧ fn k = .ok value) := by
  refine ⟨?_, ?_, ?_, ?_⟩
  · exact retryGo_attempts_le fn retryDelay maxRetries 0
  · have h := retryGo_delays fn retryDelay maxRetries 0
    simpa using h
  · intro h
    have := retryGo_all_fail fn retryDelay errF maxRetries 0
      (fun k hk1 hk2 => h k (by omega))
    simpa using this
  · intro v hv
    obtain ⟨k, hk1, hk2, hk3⟩ := retryGo_ok_source fn retryDelay maxRetries 0 v hv
    exact ⟨k, by omega, hk3⟩

/-- Witness for C3 at the defaults maxRetries = 3, retryDelay = 1000, with
a call that fails on every attempt: 4 attempts, delays 1000, 2000 and 4000
milliseconds, and the last error propagated. -/
theorem transcribeWithRetry_spec_witness :
    transcribeWithRetry (fun _ => (Except.error "boom" : Except String (List TranscriptSegment)))
        defaultMaxRetries defaultRetryDelay =
      { result := Except.error "boom", delays := [1000, 2000, 4000], attemptsMade := 4 } := by
  have h := (transcribeWithRetry_spec
    (fun _ => (Except.error "boom" : Except String (List TranscriptSegment)))
    defaultMaxRetries defaultRetryDelay (fun _ => "boom")).2.2.1 (fun k _ => rfl)
  rw [h]
  rfl

/-- Supporting lemma: truncation toward zero is bounded above by any
integer upper bound of its argument. -/
theorem ratTrunc_le (q : ℚ) (n : ℤ) (h : q ≤ (n : ℚ)) : ratTrunc q ≤ n := by
  unfold ratTrunc
  split_ifs with h0
  · calc ⌊q⌋ ≤ ⌊(n : ℚ)⌋ := Int.floor_le_floor h
      _ = n := Int.floor_intCast n
  · exact Int.ceil_le.mpr h

/-- Supporting lemma: truncation toward zero is bounded below by any
integer lower bound of its argument. -/
theorem le_ratTrunc (q : ℚ) (n : ℤ) (h : (n : ℚ) ≤ q) : n ≤ ratTrunc q := by
  unfold ratTrunc
  split_ifs with h0
  · exact Int.le_floor.mpr h
  · calc n = ⌈(n : ℚ)⌉ := (Int.ceil_intCast n).symm
      _ ≤ ⌈q⌉ := Int.ceil_le_ceil h

/-- Supporting lemma: applying ToInt32 to a value already in the int32
range leaves it unchanged. -/
theorem toInt32_eq_self (v : ℤ) (h1 : -(2 ^ 31) ≤ v) (h2 : v < 2 ^ 31) :
    toInt32 v = v := by
  unfold toInt32
  omega

/-- Supporting lemma: writing an int16-range value as a little-endian byte
pair and reading it back as a signed 16-bit value is the identity. -/
theorem int16_roundtrip (v : ℤ) (h1 : -32768 ≤ v) (h2 : v ≤ 32767) :
    int16OfBytes (int16Bytes v).1 (int16Bytes v).2 = v := by
  unfold int16Bytes int16OfBytes
  simp only
  split_ifs with h
  · push_cast
    omega
  · push_cast
    omega

/-- Supporting lemma: the value the encoder writes for a sample, with the
clamp and branch structure of the source spelled out over the raw sample:
the ×32768 branch is taken exactly for samples below -0.5. -/
theorem scaleSample_cases (s : ℚ) :
    (s < -1/2 → scaleSample s = toInt32 (ratTrunc (max (-1) s * 32768))) ∧
    (-1/2 ≤ s → scaleSample s = toInt32 (ratTrunc (min 1 s * 32767))) := by
  constructor
  · intro hs
    have hmin : (1 : ℚ) ⊓ s = s := min_eq_right (by linarith)
    have hmax : (-1 : ℚ) ⊔ s < -1/2 := max_lt (by norm_num) hs
    have hcond : (1 : ℚ) / 2 + (-1 ⊔ s) < 0 := by linarith
    simp only [scaleSample, clampSample, hmin]
    rw [if_pos hcond]
  · intro hs
    have hge : (-1/2 : ℚ) ≤ (1 : ℚ) ⊓ s := le_min (by norm_num) hs
    have hc : (-1 : ℚ) ⊔ ((1 : ℚ) ⊓ s) = (1 : ℚ) ⊓ s :=
      max_eq_right (by linarith)
    have hcond : ¬ ((1 : ℚ) / 2 + ((1 : ℚ) ⊓ s) < 0) := by linarith
    simp only [scaleSample, clampSample, hc]
    rw [if_neg hcond]

/-- Supporting lemma: the scaled sample always lies in the int16 range, so
the int32 wrap of `| 0` never changes it. -/
theorem scaleSample_range (s : ℚ) :
    -32768 ≤ scaleSample s ∧ scaleSample s ≤ 32767 ∧
      scaleSample s = ratTrunc (if 1 / 2 + clampSample s < 0 then
        clampSample s * 32768 else clampSample s * 32767) := by
  have hc1 : (-1 : ℚ) ≤ clampSample s := le_max_left _ _
  have hc2 : clampSample s ≤ 1 := by
    unfold clampSample
    rcases le_total (min 1 s) (-1) with h | h
    · rw [max_eq_left h]; norm_num
    · rw [max_eq_right h]; exact min_le_left _ _
  have hlo : (-32768 : ℚ) ≤ (if 1 / 2 + clampSample s < 0 then
      clampSample s * 32768 else clampSample s * 32767) := by
    split_ifs with h
    · nlinarith
    · nlinarith
  have hhi : (if 1 / 2 + clampSample s < 0 then
      clampSample s * 32768 else clampSample s * 32767) ≤ (32767 : ℚ) := by
    split_ifs with h
    · nlinarith
    · nlinarith
  have hlo2 := le_ratTrunc _ (-32768) (by exact_mod_cast hlo)
  have hhi2 := ratTrunc_le _ 32767 (by exact_mod_cast hhi)
  have heq : scaleSample s = ratTrunc (if 1 / 2 + clampSample s < 0 then
      clampSample s * 32768 else clampSample s * 32767) := by
    unfold scaleSample
    exact toInt32_eq_self _ (by omega) (by omega)
  exact ⟨by omega, by omega, heq⟩

/-- C5 amended: each float sample is first clamped to [-1, 1]; the clamped
value is multiplied by 32768 when it is strictly below -0.5 (the source's
condition `0.5 + sample < 0`) and by 32767 otherwise — in particular
negative samples in [-0.5, 0) use ×32767, not ×32768 — the product is
truncated toward zero, the result always fits the signed 16-bit range, and
writing it as a little-endian 16-bit pair and reading it back recovers it
exactly. -/
theorem scaleSample_amended (s : ℚ) :
    (-32768 ≤ scaleSample s ∧ scaleSample s ≤ 32767) ∧
    (s < -1/2 → scaleSample s = ratTrunc (max (-1) s * 32768)) ∧
    (-1/2 ≤ s → scaleSample s = ratTrunc (min 1 s * 32767)) ∧
    int16OfBytes (int16Bytes (scaleSample s)).1 (int16Bytes (scaleSample s)).2 =
      scaleSample s := by
  obtain ⟨hlo, hhi, heq⟩ := scaleSample_range s
  obtain ⟨hneg, hpos⟩ := scaleSample_cases s
  refine ⟨⟨hlo, hhi⟩, ?_, ?_, int16_roundtrip _ hlo hhi⟩
  · intro hs
    rw [hneg hs]
    have hmin : min 1 s = s := min_eq_right (by linarith)
    have hb1 : (-1 : ℚ) ≤ max (-1) s := le_max_left _ _
    have hb2 : max (-1) s < -1/2 := max_lt (by norm_num) hs
    refine toInt32_eq_self _ ?_ ?_
    · have := le_ratTrunc (max (-1) s * 32768) (-32768) (by push_cast; nlinarith)
      omega
    · have := ratTrunc_le (max (-1) s * 32768) 32767 (by push_cast; nlinarith)
      omega
  · intro hs
    rw [hpos hs]
    have hb1 : (-1/2 : ℚ) ≤ min 1 s := le_min (by norm_num) hs
    have hb2 : min 1 s ≤ 1 := min_le_left _ _
    refine toInt32_eq_self _ ?_ ?_
    · have := le_ratTrunc (min 1 s * 32767) (-32768) (by push_cast; nlinarith)
      omega
    · have := ratTrunc_le (min 1 s * 32767) 32767 (by push_cast; nlinarith)
      omega

/-- Witness for C5's amended claim at s = -3/4 (below the -0.5 threshold,
so ×32768 applies and gives -24576) and at s = -1/4 (at least -0.5, so
×32767 applies and gives -8191). -/
theorem scaleSample_amended_witness :
    scaleSample (-3/4) = ratTrunc (max (-1) (-3/4) * 32768) ∧
    scaleSample (-3/4) = -24576 ∧
    scaleSample (-1/4) = ratTrunc (min 1 (-1/4) * 32767) := by
  have h1 := (scaleSample_amended (-3/4)).2.1 (by norm_num)
  have h2 := (scaleSample_amended (-1/4)).2.2.1 (by norm_num)
  refine ⟨h1, ?_, h2⟩
  rw [h1]
  have hceil : (⌈(-24576 : ℚ)⌉ : ℤ) = -24576 := by
    rw [Int.ceil_eq_iff]
    constructor
    · norm_num
    · norm_num
  norm_num [ratTrunc, hceil]

/-- C5 counterexample: the claim maps every negative clamped sample by
×32768, but at sample -1/4 — negative after clamping — the code takes the
×32767 branch and writes -8191, while ×32768 with truncation would give
-8192. -/
theorem scaleSample_claim_counterexample :
    clampSample (-1/4) < 0 ∧
    ratTrunc (clampSample (-1/4) * 32768) = -8192 ∧
    scaleSample (-1/4) = -8191 := by
  refine ⟨by norm_num [clampSample], ?_, ?_⟩
  · have hceil : (⌈(-8192 : ℚ)⌉ : ℤ) = -8192 := by
      rw [Int.ceil_eq_iff]
      constructor
      · norm_num
      · norm_num
    norm_num [clampSample, ratTrunc, hceil]
  · have hceil : (⌈(-(32767 / 4) : ℚ)⌉ : ℤ) = -8191 := by
      rw [Int.ceil_eq_iff]
      constructor
      · norm_num
      · norm_num
    norm_num [scaleSample, clampSample, ratTrunc, toInt32, hceil]

/-- C6: classification inspects the message for substrings in priority
order — credential/authentication mentions give INVALID_API_KEY and
non-retryable; otherwise quota/rate-limit mentions give QUOTA_EXCEEDED and
retryable; otherwise network/fetch mentions give NETWORK_ERROR and
retryable; anything else gives API_ERROR and retryable — and the attached
user-facing message always differs from the raw technical message. -/
theorem parseGeminiError_spec (msg : String) :
    ((strIncludes msg "API key" || strIncludes msg "authentication") = true →
      (parseGeminiError msg).etype = .INVALID_API_KEY ∧
        (parseGeminiError msg).retryable = false) ∧
    ((strIncludes msg "API key" || strIncludes msg "authentication") = false →
      (strIncludes msg "quota" || strIncludes msg "rate limit") = true →
      (parseGeminiError msg).etype = .QUOTA_EXCEEDED ∧
        (parseGeminiError msg).retryable = true) ∧
    ((strIncludes msg "API key" || strIncludes msg "authentication") = false →
      (strIncludes msg "quota" || strIncludes msg "rate limit") = false →
      (strIncludes msg "network" || strIncludes msg "fetch") = true →
      (parseGeminiError msg).etype = .NETWORK_ERROR ∧
        (parseGeminiError msg).retryable = true) ∧
    ((strIncludes msg "API key" || strIncludes msg "authentication") = false →
      (strIncludes msg "quota" || strIncludes msg "rate limit") = false →
      (strIncludes msg "network" || strIncludes msg "fetch") = false →
      (parseGeminiError msg).etype = .API_ERROR ∧
        (parseGeminiError msg).retryable = true) ∧
    (parseGeminiError msg).userMessage ≠ msg := by
  refine ⟨?_, ?_, ?_, ?_, ?_⟩
  · intro h1
    simp [parseGeminiError, h1]
  · intro h1 h2
    simp [parseGeminiError, h1, h2]
  · intro h1 h2 h3
    simp [parseGeminiError, h1, h2, h3]
  · intro h1 h2 h3
    simp [parseGeminiError, h1, h2, h3]
  · by_cases h1 : (strIncludes msg "API key" || strIncludes msg "authentication") = true
    · simp only [parseGeminiError, h1, if_true]
      intro heq
      rw [← heq] at h1
      exact absurd h1 (by decide)
    · rw [Bool.not_eq_true] at h1
      by_cases h2 : (strIncludes msg "quota" || strIncludes msg "rate limit") = true
      · simp only [parseGeminiError, h1, h2, Bool.false_eq_true, if_false, if_true]
        intro heq
        rw [← heq] at h2
        exact absurd h2 (by decide)
      · rw [Bool.not_eq_true] at h2
        by_cases h3 : (strIncludes msg "network" || strIncludes msg "fetch") = true
        · simp only [parseGeminiError, h1, h2, h3, Bool.false_eq_true, if_false, if_true]
          intro heq
          rw [← heq] at h3
          exact absurd h3 (by decide)
        · rw [Bool.not_eq_true] at h3
          simp only [parseGeminiError, h1, h2, h3, Bool.false_eq_true, if_false]
          intro heq
          have hlen := congrArg String.length heq
          rw [String.length_append] at hlen
          have hp : ("API 請求失敗：" : String).length = 9 := by decide
          omega

/-- Witness for C6: a quota message is classified QUOTA_EXCEEDED and
retryable, and its user message differs from the raw text. -/
theorem parseGeminiError_spec_witness :
    (parseGeminiError "quota exceeded for project").etype = .QUOTA_EXCEEDED ∧
    (parseGeminiError "quota exceeded for project").retryable = true ∧
    (parseGeminiError "quota exceeded for project").userMessage ≠ "quota exceeded for project" := by
  have h := parseGeminiError_spec "quota exceeded for project"
  have h2 := h.2.1 (by decide) (by decide)
  exact ⟨h2.1, h2.2, h.2.2.2.2⟩

/-- C7: loadProgress returns absent when the stored record's identity
differs from the query; when the identity matches and the record is older
than 24 hours it clears the store and returns absent; when the identity
matches within 24 hours it returns the stored record unchanged. -/
theorem loadProgress_spec (fileName : String) (fileSize now : ℕ) (p : SavedProgress) :
    ((p.fileName ≠ fileName ∨ p.fileSize ≠ fileSize) →
      loadProgress fileName fileSize now (some p) = (none, some p)) ∧
    (p.fileName = fileName → p.fileSize = fileSize →
      MAX_AGE_MS < now - p.timestamp →
      loadProgress fileName fileSize now (some p) = (none, none)) ∧
    (p.fileName = fileName → p.fileSize = fileSize →
      now - p.timestamp ≤ MAX_AGE_MS →
      loadProgress fileName fileSize now (some p) = (some p, some p)) := by
  refine ⟨?_, ?_, ?_⟩
  · intro h
    simp only [loadProgress, if_pos h]
  · intro h1 h2 h3
    have hid : ¬ (p.fileName ≠ fileName ∨ p.fileSize ≠ fileSize) := by
      push_neg
      exact ⟨h1, h2⟩
    simp only [loadProgress, if_neg hid, if_pos h3, clearProgress]
  · intro h1 h2 h3
    have hid : ¬ (p.fileName ≠ fileName ∨ p.fileSize ≠ fileSize) := by
      push_neg
      exact ⟨h1, h2⟩
    have hage : ¬ (now - p.timestamp > MAX_AGE_MS) := by omega
    simp only [loadProgress, if_neg hid, if_neg hage]

/-- Witness for C7: a matching record 5 ms old is returned; the same record
queried under a different name is absent; a matching record one hour past
the 24-hour window is absent with the store cleared. -/
theorem loadProgress_spec_witness :
    loadProgress "a.mp3" 1000 5 (some emptyRecord) = (some emptyRecord, some emptyRecord) ∧
    loadProgress "b.mp3" 1000 5 (some emptyRecord) = (none, some emptyRecord) ∧
    loadProgress "a.mp3" 1000 (MAX_AGE_MS + 3600000) (some emptyRecord) = (none, none) := by
  refine ⟨?_, ?_, ?_⟩
  · exact (loadProgress_spec "a.mp3" 1000 5 emptyRecord).2.2 rfl rfl (by decide)
  · exact (loadProgress_spec "b.mp3" 1000 5 emptyRecord).1 (by decide)
  · exact (loadProgress_spec "a.mp3" 1000 (MAX_AGE_MS + 3600000) emptyRecord).2.1 rfl rfl
      (by decide)

/-- C10: on an identity mismatch loadProgress reports absent and leaves the
stored record exactly as it was; and in general the store after a load is
either unchanged or empty, the latter only when the stored record matched
the queried identity and had expired. -/
theorem loadProgress_mismatch_frame (fileName : String) (fileSize now : ℕ) (store : Store) :
    (∀ p, store = some p → (p.fileName ≠ fileName ∨ p.fileSize ≠ fileSize) →
      loadProgress fileName fileSize now store = (none, store)) ∧
    ((loadProgress fileName fileSize now store).2 = store ∨
      ((loadProgress fileName fileSize now store).2 = none ∧
        ∃ p, store = some p ∧ p.fileName = fileName ∧ p.fileSize = fileSize ∧
          MAX_AGE_MS < now - p.timestamp)) := by
  constructor
  · intro p hp hne
    subst hp
    simp only [loadProgress, if_pos hne]
  · match store with
    | none => left; rfl
    | some p =>
      by_cases hid : p.fileName ≠ fileName ∨ p.fileSize ≠ fileSize
      · left
        simp only [loadProgress, if_pos hid]
      · by_cases hage : now - p.timestamp > MAX_AGE_MS
        · right
          push_neg at hid
          have hid2 : ¬ (p.fileName ≠ fileName ∨ p.fileSize ≠ fileSize) := by
            push_neg
            exact hid
          refine ⟨?_, p, rfl, hid.1, hid.2, hage⟩
          simp only [loadProgress, if_neg hid2, if_pos hage, clearProgress]
        · left
          simp only [loadProgress, if_neg hid, if_neg hage]

/-- Witness for C10: querying a different file name leaves the stored
record in place and reports absent. -/
theorem loadProgress_mismatch_frame_witness :
    loadProgress "other.mp3" 1000 5 (some emptyRecord) = (none, some emptyRecord) := by
  exact (loadProgress_mismatch_frame "other.mp3" 1000 5 (some emptyRecord)).1
    emptyRecord rfl (by decide)

/-- C9: parseTimeStringToSeconds maps "1:30" to 90, "05:12" to 312 and
"1:02:03" to 3723, and returns 0 for every input one of whose
colon-separated components is not numeric — and, being a total function,
it never throws. -/
theorem parseTimeStringToSeconds_spec :
    parseTimeStringToSeconds "1:30" = 90 ∧
    parseTimeStringToSeconds "05:12" = 312 ∧
    parseTimeStringToSeconds "1:02:03" = 3723 ∧
    ∀ timeStr : String,
      ((splitChar ':' (trimWs timeStr.data)).map jsNumberChars).any Option.isNone = true →
      parseTimeStringToSeconds timeStr = 0 := by
  refine ⟨?_, ?_, ?_, ?_⟩
  · have h1 : (splitChar ':' (trimWs ("1:30".data))).map jsNumberChars =
        [some 1, some 30] := by decide
    norm_num [parseTimeStringToSeconds, h1]
  · have h1 : (splitChar ':' (trimWs ("05:12".data))).map jsNumberChars =
        [some 5, some 12] := by decide
    norm_num [parseTimeStringToSeconds, h1]
  · have h1 : (splitChar ':' (trimWs ("1:02:03".data))).map jsNumberChars =
        [some 1, some 2, some 3] := by decide
    norm_num [parseTimeStringToSeconds, h1]
  · intro timeStr h
    simp only [parseTimeStringToSeconds, h, if_true]

/-- Witness for C9's malformed case: "abc:12" has a non-numeric component
and parses to 0. -/
theorem parseTimeStringToSeconds_spec_witness :
    parseTimeStringToSeconds "abc:12" = 0 :=
  parseTimeStringToSeconds_spec.2.2.2 "abc:12" (by decide)

/-- Supporting lemma: one loop-body iteration appends exactly that chunk's
contribution to the transcripts cell and leaves the status unchanged. -/
theorem stepChunk_effect (env : LoopEnv) (i : ℕ) (st : LoopState) :
    (stepChunk env i st).transcripts = st.transcripts ++ chunkContribution env i ∧
    (stepChunk env i st).status = st.status := by
  unfold stepChunk chunkContribution
  cases h : env.outcome i with
  | ok v => simp
  | error e => simp

/-- Supporting lemma: when the stop signal is never set, the loop visits
every remaining chunk in order, appending each chunk's contribution, and
leaves the status unchanged. -/
theorem processLoop_no_stop (env : LoopEnv) (hstop : ∀ i, env.stopSignal i = false) :
    ∀ remaining i st,
      (processLoop env remaining i st).transcripts =
        st.transcripts ++ ((List.range' i remaining).map (chunkContribution env)).flatten ∧
      (processLoop env remaining i st).status = st.status := by
  intro remaining
  induction remaining with
  | zero => intro i st; simp [processLoop]
  | succ r ih =>
    intro i st
    rw [processLoop, if_neg (by simp [hstop i])]
    obtain ⟨ht, hs⟩ := ih (i + 1) (stepChunk env i st)
    obtain ⟨ht2, hs2⟩ := stepChunk_effect env i st
    constructor
    · rw [ht, ht2, List.range'_succ, List.map_cons, List.flatten_cons, List.append_assoc]
    · rw [hs, hs2]

/-- C2: when the stop signal never fires, the run reaches COMPLETED having
visited every chunk from the start index on — a failing chunk never
terminates the loop, whatever its classification — and the transcripts are
the initial cell plus, per chunk in order, either its returned segments or,
for a chunk whose call failed after retries, exactly one synthetic
placeholder whose speaker is "System", whose startTimeSeconds is the
chunk's absolute offset chunkIndex * CHUNK_DURATION, and whose text embeds
the 1-based chunk number and the classified user-facing message. -/
theorem failed_chunk_appends_single_placeholder (env : LoopEnv) (startChunk : ℕ)
    (st : LoopState) (hstop : ∀ i, env.stopSignal i = false) :
    (processAudioRun env startChunk st).status = .COMPLETED ∧
    (processAudioRun env startChunk st).transcripts =
      st.transcripts ++
        ((List.range' startChunk (env.totalChunks - startChunk)).map
          (chunkContribution env)).flatten ∧
    (∀ i err, env.outcome i = .error err →
      chunkContribution env i =
        [{ speaker := "System", timestamp := "Error",
           startTimeSeconds := ((i * CHUNK_DURATION : ℕ) : ℚ),
           text := "[轉錄此片段時發生錯誤 (" ++ toString (i + 1) ++ "): " ++
             (parseGeminiError err).userMessage ++ "]" }]) := by
  obtain ⟨ht, hs⟩ := processLoop_no_stop env hstop (env.totalChunks - startChunk)
    startChunk { st with status := .PROCESSING }
  refine ⟨?_, ?_, ?_⟩
  · simp only [processAudioRun, hstop env.totalChunks, Bool.false_eq_true, if_false]
  · simp only [processAudioRun, hstop env.totalChunks, Bool.false_eq_true, if_false]
    exact ht
  · intro i err h
    simp [chunkContribution, h, errorSegment]

/-- Witness for C2 at the spec's scenario B: chunk 1 (0-based) of 3 fails
after retries; the run completes, the transcripts hold chunk 0's segment,
exactly one System placeholder for chunk 1, then chunk 2's segment, and the
placeholder sits at 300 seconds. -/
theorem failed_chunk_appends_single_placeholder_witness :
    (processAudioRun envScenarioB 0 freshState).status = .COMPLETED ∧
    (processAudioRun envScenarioB 0 freshState).transcripts =
      [sampleSegment, errorSegment 1 (parseGeminiError "network glitch"),
        sampleSegmentLate] ∧
    (errorSegment 1 (parseGeminiError "network glitch")).startTimeSeconds = 300 ∧
    (errorSegment 1 (parseGeminiError "network glitch")).speaker = "System" := by
  have h := failed_chunk_appends_single_placeholder envScenarioB 0 freshState
    (fun _ => rfl)
  refine ⟨h.1, ?_, by decide, by decide⟩
  rw [h.2.1]
  decide

/-- C1 evidence (code bug): in the spec's scenario C — a fresh 3-chunk run
whose chunk 0 succeeds with one segment, stopped before chunk 1 — the run
ends STOPPED with the segment in the in-memory transcript, but the record
it persists carries the `transcripts` binding captured at function entry
(empty), not the segments accumulated in the run, because the stop branch
of src/unnamed/part_000 line 122 reads the stale closure variable.  A load
within 24 hours therefore returns processedChunks = 1 and totalChunks = 3
as the claim states, but an empty segment list instead of the completed
chunk's segments — and the zero-segment record can then never trigger the
resume offer. -/
theorem stop_save_persists_stale_transcripts :
    runScenarioC.status = .STOPPED ∧
    runScenarioC.transcripts = [sampleSegment] ∧
    (loadProgress "a.mp3" 1000 3600000 runScenarioC.store).1 =
      some { fileName := "a.mp3", fileSize := 1000, transcripts := [],
             processedChunks := 1, totalChunks := 3, timestamp := 0 } ∧
    3600000 - (0 : ℕ) ≤ MAX_AGE_MS := by
  refine ⟨by decide, by decide, by decide, by decide⟩

/-- C8 evidence (code bug): the startChunk computation of
src/unnamed/part_000 lines 110-112 tests only that a loaded record with
segments exists, not whether the user accepted the resume offer.  Declining
a matching record with 2 of 3 chunks done clears the store and empties the
transcripts, yet starts the loop at chunk 2 instead of chunk 0; and when
the loaded record holds no segments, the stale record is left in the store
rather than cleared. -/
theorem decline_resume_starts_at_saved_index :
    resumeDecision "a.mp3" 1000 1000 false (some declinedRecord) = (2, [], none) ∧
    resumeDecision "a.mp3" 1000 1000 false (some emptyRecord) =
      (0, [], some emptyRecord) := by
  refine ⟨by decide, by decide⟩

end GeminiTranscription
